import Mathlib

/-
Verification of the AI-Learning vocabulary app (src/index.tsx).

The development shallowly embeds the core of the program:
  - a model of JSON.parse (the JS builtin used at lines 107, 110, 201),
  - the lookup pipeline performLookup (lines 161-230),
  - the notebook store and its toggle/remove mutations (lines 401-413, 511),
  - the study (flashcard) navigator (lines 536-586),
  - hydration of the notebook from persisted storage (lines 105-115),
  - the audio decoder decodeAudioData (lines 64-80),
  - the base64 decode utility (lines 54-62) together with a reference
    base64 encoder (RFC 4648), which the repository itself never contains
    but which is needed to state the left-inverse property.

External service calls (the generative-AI SDK) are modelled as oracles:
a call either resolves with a response value or throws; the embedding is
parameterised over that outcome and reproduces the source's control flow.
-/

namespace AILexicon

/-! ## JSON values and a model of the JS builtin JSON.parse

The source calls `JSON.parse` on model responses (line 201) and on the
persisted notebook/setup blobs (lines 107, 110).  `JSON.parse` is a JS
builtin, external to the repository; it is modelled here by a
recursive-descent parser over the JSON grammar.  Numbers are kept as their
raw source text (no floating-point semantics is needed by any claim). -/

inductive Json where
  | null : Json
  | bool (b : Bool) : Json
  | num (raw : String) : Json
  | str (s : String) : Json
  | arr (items : List Json) : Json
  | obj (fields : List (String × Json)) : Json

/-- ASCII whitespace accepted between JSON tokens. -/
def isWs (c : Char) : Bool :=
  c.toNat = 32 || c.toNat = 10 || c.toNat = 9 || c.toNat = 13

def skipWs : List Char → List Char
  | [] => []
  | c :: cs => if isWs c then skipWs cs else c :: cs

def isDigit (c : Char) : Bool := 48 ≤ c.toNat && c.toNat ≤ 57

/-- Splits a leading run of decimal digits off a character list. -/
def takeDigits : List Char → List Char × List Char
  | [] => ([], [])
  | c :: cs =>
    if isDigit c then
      let p := takeDigits cs
      (c :: p.1, p.2)
    else ([], c :: cs)

/-- Single-character JSON string escapes: the letters n, t, r, b, f map to
their control characters, while quote, backslash and slash map to
themselves. -/
def escChar (e : Char) : Option Char :=
  if e = 'n' then some (Char.ofNat 10)
  else if e = 't' then some (Char.ofNat 9)
  else if e = 'r' then some (Char.ofNat 13)
  else if e = 'b' then some (Char.ofNat 8)
  else if e = 'f' then some (Char.ofNat 12)
  else if e = '"' ∨ e = '\\' ∨ e = '/' then some e
  else none

def hexVal (c : Char) : Option Nat :=
  if 48 ≤ c.toNat ∧ c.toNat ≤ 57 then some (c.toNat - 48)
  else if 97 ≤ c.toNat ∧ c.toNat ≤ 102 then some (c.toNat - 87)
  else if 65 ≤ c.toNat ∧ c.toNat ≤ 70 then some (c.toNat - 55)
  else none

/-- Parses the body of a JSON string literal (the opening quote already
consumed); returns the decoded string and the remaining input. -/
def parseStringBody : List Char → Option (String × List Char)
  | [] => none
  | '"' :: rest => some ("", rest)
  | '\\' :: 'u' :: h1 :: h2 :: h3 :: h4 :: rest =>
    match hexVal h1, hexVal h2, hexVal h3, hexVal h4 with
    | some a, some b, some c, some d =>
      (parseStringBody rest).map
        (fun p => (String.mk (Char.ofNat (a * 4096 + b * 256 + c * 16 + d) :: p.1.data), p.2))
    | _, _, _, _ => none
  | '\\' :: e :: rest =>
    match escChar e with
    | some c => (parseStringBody rest).map (fun p => (String.mk (c :: p.1.data), p.2))
    | none => none
  | c :: rest => (parseStringBody rest).map (fun p => (String.mk (c :: p.1.data), p.2))

def parseExpDigits (raw pre : String) (cs : List Char) : Option (Json × List Char) :=
  let sp : String × List Char :=
    match cs with
    | '+' :: r2 => ("+", r2)
    | '-' :: r2 => ("-", r2)
    | _ => ("", cs)
  match takeDigits sp.2 with
  | ([], _) => none
  | (ds, rest) => some (Json.num (raw ++ pre ++ sp.1 ++ String.mk ds), rest)

def parseExpPart (raw : String) (cs : List Char) : Option (Json × List Char) :=
  match cs with
  | 'e' :: r => parseExpDigits raw "e" r
  | 'E' :: r => parseExpDigits raw "E" r
  | _ => some (Json.num raw, cs)

/-- Parses a JSON number starting at the given input (which must begin with
a minus sign or a digit); the raw text of the token is retained. -/
def parseNum (cs : List Char) : Option (Json × List Char) :=
  let sp : String × List Char :=
    match cs with
    | '-' :: r => ("-", r)
    | _ => ("", cs)
  match takeDigits sp.2 with
  | ([], _) => none
  | (int, cs2) =>
    match cs2 with
    | '.' :: r =>
      match takeDigits r with
      | ([], _) => none
      | (frac, cs3) => parseExpPart (sp.1 ++ String.mk int ++ "." ++ String.mk frac) cs3
    | _ => parseExpPart (sp.1 ++ String.mk int) cs2

/-- Parses a comma-separated run of array items; `pv` parses one value.
The item parser carries its own fuel (an upper bound on the item count). -/
def parseItemsAux (pv : List Char → Option (Json × List Char)) :
    Nat → List Char → Option (List Json × List Char)
  | 0, _ => none
  | n + 1, cs =>
    match pv cs with
    | none => none
    | some (v, r1) =>
      match skipWs r1 with
      | ',' :: r2 =>
        match parseItemsAux pv n (skipWs r2) with
        | some (vs, r3) => some (v :: vs, r3)
        | none => none
      | ']' :: r2 => some ([v], r2)
      | _ => none

/-- Parses a comma-separated run of object members; `pv` parses one value. -/
def parseFieldsAux (pv : List Char → Option (Json × List Char)) :
    Nat → List Char → Option (List (String × Json) × List Char)
  | 0, _ => none
  | n + 1, cs =>
    match skipWs cs with
    | '"' :: rest =>
      match parseStringBody rest with
      | none => none
      | some (k, r1) =>
        match skipWs r1 with
        | ':' :: r2 =>
          match pv (skipWs r2) with
          | none => none
          | some (v, r3) =>
            match skipWs r3 with
            | ',' :: r4 =>
              match parseFieldsAux pv n (skipWs r4) with
              | some (fs, r5) => some ((k, v) :: fs, r5)
              | none => none
            | '\x7d' :: r4 => some ([(k, v)], r4)
            | _ => none
        | _ => none
    | _ => none

/-- Parses one JSON value.  The fuel bounds the nesting depth; calling with
fuel strictly greater than the input length makes the parser total on the
grammar, since every nesting level consumes at least one character. -/
def parseVal : Nat → List Char → Option (Json × List Char)
  | 0, _ => none
  | n + 1, cs0 =>
    match skipWs cs0 with
    | 'n' :: 'u' :: 'l' :: 'l' :: rest => some (Json.null, rest)
    | 't' :: 'r' :: 'u' :: 'e' :: rest => some (Json.bool true, rest)
    | 'f' :: 'a' :: 'l' :: 's' :: 'e' :: rest => some (Json.bool false, rest)
    | '"' :: rest => (parseStringBody rest).map (fun p => (Json.str p.1, p.2))
    | '[' :: rest =>
      match skipWs rest with
      | ']' :: r2 => some (Json.arr [], r2)
      | r2 => (parseItemsAux (parseVal n) (r2.length + 1) r2).map (fun p => (Json.arr p.1, p.2))
    | '\x7b' :: rest =>
      match skipWs rest with
      | '\x7d' :: r2 => some (Json.obj [], r2)
      | r2 => (parseFieldsAux (parseVal n) (r2.length + 1) r2).map (fun p => (Json.obj p.1, p.2))
    | cs => parseNum cs

/-- Model of the JS builtin `JSON.parse`: `none` models a thrown
`SyntaxError`, `some j` a successful parse of the whole input. -/
def jsonParse (s : String) : Option Json :=
  match parseVal (s.length + 1) s.data with
  | some (j, rest) => if (skipWs rest).isEmpty then some j else none
  | none => none

/-- Property access `parsed.k` on a parse result: on a JS object the last
binding of a duplicated key wins (as in `JSON.parse`); on any non-object
value the access yields `undefined`, modelled as `none`. -/
def jsonField (j : Json) (k : String) : Option Json :=
  match j with
  | Json.obj fs => ((fs.filter (fun p => p.1 = k)).map (fun p => p.2)).getLast?
  | _ => none

/-! ## The lookup pipeline (performLookup, lines 161-230)

Each awaited SDK call either resolves with a value or rejects; a rejection
propagates to the surrounding try/catch of `performLookup`. -/

inductive StepResult (α : Type) where
  | ok (val : α) : StepResult α
  | threw : StepResult α

/-- One part of an image-generation response; `inlineData` carries the
base64 image payload when present (the field chain
`part.inlineData.data` is collapsed to the payload string). -/
structure ImagePart where
  inlineData : Option String

structure ImageContent where
  parts : List ImagePart

structure ImageCandidate where
  content : ImageContent

structure ImageResponse where
  candidates : List ImageCandidate

/-- The object actually built at line 216: a spread of the parsed JSON
(`...parsed`) followed by the four stamped fields.  Because the code never
validates the parsed response, the lexical fields are whatever property
access on the parse result yields, including `undefined` (`none`). -/
structure LookupEntry where
  word : Option Json
  definition : Option Json
  examples : Option Json
  usage : Option Json
  id : String
  imageUrl : String
  targetLang : String
  nativeLang : String

/-- Outcome of one `performLookup` run: the final value of the `result`
state (line 163 first clears it to null), and whether the
image-generation request (line 204) was issued. -/
structure LookupResult where
  result : Option LookupEntry
  imageCalled : Bool

/-- Line 201: `textResponse.text || '\x7b\x7d'` — a missing or empty text
(both JS-falsy) is replaced by the two-character source text of an empty
JSON object before parsing. -/
def effectiveText : Option String → String
  | none => "\x7b\x7d"
  | some s => if s = "" then "\x7b\x7d" else s

/-- The scan at lines 209-214: every part carrying inline data overwrites
`imgUrl`, so the last such part wins; with no such part the initial empty
string survives. -/
def scanImageParts (parts : List ImagePart) : String :=
  parts.foldl
    (fun acc p =>
      match p.inlineData with
      | some d => "data:image/png;base64," ++ d
      | none => acc) ""

/-- Shallow embedding of `performLookup` (lines 161-230).  `lookupText` is
the query (used only inside the request prompts); `textStep` is the
outcome of the text-generation call, `imageStep` the outcome the
image-generation call would have; `idStamp` models `Date.now().toString()`.
A `.threw` text step, a `JSON.parse` failure, a thrown image call and an
image response with no candidates all land in the catch block at line 225,
which merely logs: `result` stays cleared and no entry is surfaced. -/
def performLookup (lookupText : String) (textStep : StepResult (Option String))
    (imageStep : StepResult ImageResponse) (idStamp targetLang nativeLang : String) :
    LookupResult :=
  match textStep with
  | StepResult.threw => ⟨none, false⟩
  | StepResult.ok t =>
    match jsonParse (effectiveText t) with
    | none => ⟨none, false⟩
    | some parsed =>
      match imageStep with
      | StepResult.threw => ⟨none, true⟩
      | StepResult.ok resp =>
        match resp.candidates.head? with
        | none => ⟨none, true⟩
        | some cand =>
          ⟨some
            { word := jsonField parsed "word"
              definition := jsonField parsed "definition"
              examples := jsonField parsed "examples"
              usage := jsonField parsed "usage"
              id := idStamp
              imageUrl := scanImageParts cand.content.parts
              targetLang := targetLang
              nativeLang := nativeLang }, true⟩

/-! ## WordEntry and the notebook store (lines 36-45, 401-413, 511) -/

/-- The `WordEntry` interface (lines 36-45); `examples` are
(target, native) sentence pairs. -/
structure WordEntry where
  id : String
  word : String
  definition : String
  examples : List (String × String)
  usage : String
  imageUrl : Option String
  targetLang : String
  nativeLang : String
deriving DecidableEq

/-- The notebook toggle button (lines 402-407): if some saved entry has
the same `word` (case-sensitive), filter all such entries out; otherwise
append the entry at the end. -/
def toggleNotebook (nb : List WordEntry) (e : WordEntry) : List WordEntry :=
  if nb.any (fun n => n.word == e.word) then nb.filter (fun n => n.word != e.word)
  else nb ++ [e]

/-- The notebook remove button (line 511): delete by `id`. -/
def removeFromNotebook (nb : List WordEntry) (entryId : String) : List WordEntry :=
  nb.filter (fun n => n.id != entryId)

/-! ## Application state: notebook mutations and the study navigator
(lines 98-99, 401-413, 511, 536-586)

The relevant mutable UI state is the notebook list plus the study
session's `currentCardIndex` and `isFlipped`.  No code path resets
`currentCardIndex` or `isFlipped` when the notebook is mutated. -/

structure AppState where
  notebook : List WordEntry
  currentCardIndex : Nat
  isFlipped : Bool
deriving DecidableEq

inductive AppOp where
  | toggleSave (e : WordEntry) : AppOp
  | removeId (entryId : String) : AppOp
  | studyPrev : AppOp
  | studyNext : AppOp
  | flipCard : AppOp

/-- One user interaction.  `studyPrev`/`studyNext`/`flipCard` model clicks
in the study view, which is only rendered for a non-empty notebook
(line 525); the Previous button is disabled at index 0 (line 573) and the
Next button at index `length - 1` (line 580) — a disabled button cannot
fire its handler, so such a press leaves the state unchanged.  An enabled
press moves the index and sets `isFlipped` to false (lines 574, 581); a
card click toggles `isFlipped` (line 538).  `toggleSave` and `removeId`
mutate only the notebook: the study session fields are left untouched. -/
def appStep (s : AppState) : AppOp → AppState
  | AppOp.toggleSave e => { s with notebook := toggleNotebook s.notebook e }
  | AppOp.removeId i => { s with notebook := removeFromNotebook s.notebook i }
  | AppOp.studyPrev =>
    if s.notebook = [] then s
    else if s.currentCardIndex = 0 then s
    else { s with currentCardIndex := s.currentCardIndex - 1, isFlipped := false }
  | AppOp.studyNext =>
    if s.notebook = [] then s
    else if s.currentCardIndex = s.notebook.length - 1 then s
    else { s with currentCardIndex := s.currentCardIndex + 1, isFlipped := false }
  | AppOp.flipCard => { s with isFlipped := !s.isFlipped }

def runOps (s : AppState) (ops : List AppOp) : AppState :=
  ops.foldl appStep s

/-! ## Hydration of the notebook from persisted storage (lines 105-107) -/

/-- Outcome of the hydration effect for the notebook blob. -/
inductive HydrationResult where
  | store (notebook : Json) : HydrationResult
  | fatal : HydrationResult

/-- Lines 105-107: `localStorage.getItem` yields the blob or null, and
`if (saved)` is a JS truthiness test, so a null blob AND a present but
empty-string blob both skip `setNotebook`, leaving the initial `[]`
(modelled as storing an empty JSON array).  A truthy (nonempty) blob is
fed to `JSON.parse` with no try/catch: a parse failure throws out of the
effect (`fatal`); a parse success stores the parsed value unchecked. -/
def hydrateNotebook : Option String → HydrationResult
  | none => HydrationResult.store (Json.arr [])
  | some s =>
    if s = "" then HydrationResult.store (Json.arr [])
    else
      match jsonParse s with
      | some j => HydrationResult.store j
      | none => HydrationResult.fatal

/-! ## The audio decoder (decodeAudioData, lines 64-80)

The byte payload is reinterpreted as a little-endian signed 16-bit array
(`new Int16Array(data.buffer)`, which throws on an odd byte length), the
frame count is computed with JS number division, and each channel is
filled with `dataInt16[i * numChannels + channel] / 32768.0`.  Samples
are modelled as rationals: every value `k / 32768` with `|k| ≤ 32768` is
exactly representable in binary floating point, so the rational model is
exact. -/

/-- Little-endian reinterpretation of two bytes as a signed 16-bit value. -/
def toInt16 (lo hi : Nat) : Int :=
  let v := lo + 256 * hi
  if 32768 ≤ v then (v : Int) - 65536 else (v : Int)

/-- Model of `new Int16Array(data.buffer)`: `none` models the RangeError
thrown when the byte length is not a multiple of 2. -/
def bytesToInt16 : List Nat → Option (List Int)
  | [] => some []
  | [_] => none
  | lo :: hi :: rest => (bytesToInt16 rest).map (fun l => toInt16 lo hi :: l)

/-- Line 71: `dataInt16.length / numChannels` with JS number division —
the exact rational quotient, not an integer division. -/
def frameCountJS (sampleCount numChannels : Nat) : ℚ :=
  (sampleCount : ℚ) / (numChannels : ℚ)

/-- Line 72: `ctx.createBuffer(numChannels, frameCount, sampleRate)` —
WebIDL converts the `length` argument to an unsigned long by truncation,
so the created buffer has `⌊frameCount⌋` frames. -/
def bufferLength (sampleCount numChannels : Nat) : Nat :=
  ⌊frameCountJS sampleCount numChannels⌋₊

/-- Shallow embedding of `decodeAudioData` (lines 64-80), returning the
per-channel sample lists of the produced buffer.  The write loop runs for
`i < frameCount` (the rational bound), but a typed-array store at an index
at or past the buffer length is silently dropped, so exactly the writes
with `i < bufferLength` survive — and for those the read index
`i * numChannels + channel` is in range, making the `getD` default dead. -/
def decodeAudioData (data : List Nat) (numChannels : Nat) : Option (List (List ℚ)) :=
  (bytesToInt16 data).map (fun pcm =>
    (List.range numChannels).map (fun channel =>
      (List.range (bufferLength pcm.length numChannels)).map (fun i =>
        ((pcm.getD (i * numChannels + channel) 0 : Int) : ℚ) / 32768)))

/-- The sample of channel `c` at frame `i` in a decoded buffer. -/
def sampleAt (chs : List (List ℚ)) (c i : Nat) : ℚ :=
  (chs.getD c []).getD i 0

/-! ## The base64 decode utility (decode, lines 54-62)

`decode` calls the JS builtin `atob` and then copies the character codes
of the resulting binary string into a byte array.  `atob` implements
forgiving-base64 (WHATWG): ASCII whitespace is removed, the final quantum
may use `=` padding or be left unpadded, and any other non-alphabet
character is an error.  A reference RFC 4648 encoder (`b64encode`), which
the repository does not contain, is defined to state the left-inverse
property. -/

def b64Alphabet : List Char :=
  "ABCDEFGHIJKLMNOPQRSTUVWXYZabcdefghijklmnopqrstuvwxyz0123456789+/".toList

def encChar (n : Nat) : Char := b64Alphabet.getD n 'A'

def decChar (c : Char) : Option Nat := List.findIdx? (fun x => x == c) b64Alphabet

/-- Reference RFC 4648 base64 encoder over byte values. -/
def b64encode : List Nat → List Char
  | [] => []
  | [a] => [encChar (a / 4), encChar (a % 4 * 16), '=', '=']
  | [a, b] => [encChar (a / 4), encChar (a % 4 * 16 + b / 16), encChar (b % 16 * 4), '=']
  | a :: b :: c :: rest =>
    encChar (a / 4) :: encChar (a % 4 * 16 + b / 16) ::
      encChar (b % 16 * 4 + c / 64) :: encChar (c % 64) :: b64encode rest

def b64encodeString (bs : List Nat) : String := String.mk (b64encode bs)

/-- Decodes one base64 quantum of four characters onto the front of an
already-decoded tail. -/
def decodeQuad (w x y z : Char) (tail : Option (List Nat)) : Option (List Nat) :=
  match decChar w, decChar x, decChar y, decChar z with
  | some a, some b, some c, some d =>
    tail.map (fun bs => (a * 4 + b / 16) :: (b % 16 * 16 + c / 4) :: (c % 4 * 64 + d) :: bs)
  | _, _, _, _ => none

/-- Core of forgiving-base64 on whitespace-free input: full quanta of four
characters, with a final quantum of two or three characters (unpadded) or
four characters ending in `=` padding. -/
def b64decodeCore : List Char → Option (List Nat)
  | [] => some []
  | [w, x] =>
    match decChar w, decChar x with
    | some a, some b => some [a * 4 + b / 16]
    | _, _ => none
  | [w, x, y] =>
    match decChar w, decChar x, decChar y with
    | some a, some b, some c => some [a * 4 + b / 16, b % 16 * 16 + c / 4]
    | _, _, _ => none
  | [w, x, y, z] =>
    if z = '=' then
      if y = '=' then
        match decChar w, decChar x with
        | some a, some b => some [a * 4 + b / 16]
        | _, _ => none
      else
        match decChar w, decChar x, decChar y with
        | some a, some b, some c => some [a * 4 + b / 16, b % 16 * 16 + c / 4]
        | _, _, _ => none
    else decodeQuad w x y z (some [])
  | w :: x :: y :: z :: rest => decodeQuad w x y z (b64decodeCore rest)
  | _ => none

/-- The byte values of the binary string produced by `atob`; `none`
models a thrown `InvalidCharacterError`. -/
def atobBytes (s : String) : Option (List Nat) :=
  b64decodeCore (s.data.filter (fun c => !isWs c))

/-- The binary string `atob` returns: one char (code point < 256) per
decoded byte. -/
def atobString (s : String) : Option String :=
  (atobBytes s).map (fun bs => String.mk (bs.map Char.ofNat))

/-- Shallow embedding of `decode` (lines 54-62): run `atob`, then copy
`binaryString.charCodeAt(i)` for each index into the byte array. -/
def decode (base64 : String) : Option (List Nat) :=
  (atobString base64).map (fun bin => bin.data.map Char.toNat)

/-! ## Concrete sample entries used by witnesses and counterexamples -/

def entryA : WordEntry :=
  { id := "a1", word := "hola", definition := "hello", examples := [("¡Hola!", "Hello!")],
    usage := "casual", imageUrl := none, targetLang := "es", nativeLang := "en" }

def entryB : WordEntry :=
  { id := "b1", word := "gato", definition := "cat", examples := [("El gato", "The cat")],
    usage := "common", imageUrl := none, targetLang := "es", nativeLang := "en" }

def entryC : WordEntry :=
  { id := "c1", word := "pan", definition := "bread", examples := [("Pan fresco", "Fresh bread")],
    usage := "food", imageUrl := none, targetLang := "es", nativeLang := "en" }

/-! ## Helper lemmas -/

/-- The buffer length produced by the JS number division followed by the
WebIDL truncation equals natural-number division. -/
theorem bufferLength_eq (S C : Nat) : bufferLength S C = S / C :=
  Nat.floor_div_eq_div (α := ℚ) S C

theorem getD_map_range {α : Type} (f : Nat → α) (n c : Nat) (d : α) (h : c < n) :
    ((List.range n).map f).getD c d = f c := by
  simp [List.getD, h]

/-- A byte list of even length reinterprets successfully as int16 values,
one per byte pair. -/
theorem bytesToInt16_even : ∀ (data : List Nat), 2 ∣ data.length →
    ∃ pcm, bytesToInt16 data = some pcm ∧ pcm.length = data.length / 2
  | [], _ => ⟨[], rfl, rfl⟩
  | [_], h => by simp at h
  | lo :: hi :: rest, h => by
    have h2 : 2 ∣ rest.length := by
      simp [List.length_cons] at h
      omega
    obtain ⟨pcm, hp, hl⟩ := bytesToInt16_even rest h2
    refine ⟨toInt16 lo hi :: pcm, ?_, ?_⟩
    · simp [bytesToInt16, hp]
    · simp [List.length_cons, hl]
      omega

/-- The image-part scan leaves the accumulator unchanged when no part
carries inline data. -/
theorem scanFold_all_none : ∀ (parts : List ImagePart) (acc : String),
    (∀ p ∈ parts, p.inlineData = none) →
    parts.foldl
      (fun acc p =>
        match p.inlineData with
        | some d => "data:image/png;base64," ++ d
        | none => acc) acc = acc
  | [], _, _ => rfl
  | p :: ps, acc, h => by
    have hp : p.inlineData = none := h p (by simp)
    simp only [List.foldl_cons, hp]
    exact scanFold_all_none ps acc (fun q hq => h q (by simp [hq]))

theorem dec_enc : ∀ n < 64, decChar (encChar n) = some n := by decide

theorem encChar_big (n : Nat) (h : 64 ≤ n) : encChar n = 'A' := by
  unfold encChar
  rw [List.getD_eq_default]
  have : b64Alphabet.length = 64 := by decide
  omega

theorem encChar_ne_pad (n : Nat) : encChar n ≠ '=' := by
  by_cases h : n < 64
  · exact (by decide : ∀ m < 64, encChar m ≠ '=') n h
  · rw [encChar_big n (by omega)]
    decide

theorem isWs_encChar (n : Nat) : isWs (encChar n) = false := by
  by_cases h : n < 64
  · exact (by decide : ∀ m < 64, isWs (encChar m) = false) n h
  · rw [encChar_big n (by omega)]
    decide

theorem mem_b64encode : ∀ (bs : List Nat) (c : Char), c ∈ b64encode bs →
    c = '=' ∨ ∃ n, c = encChar n
  | [], c, h => by simp [b64encode] at h
  | [a], c, h => by
    simp only [b64encode, List.mem_cons, List.mem_singleton, List.not_mem_nil, or_false] at h
    rcases h with h | h | h | h
    · exact Or.inr ⟨_, h⟩
    · exact Or.inr ⟨_, h⟩
    · exact Or.inl h
    · exact Or.inl h
  | [a, b], c, h => by
    simp only [b64encode, List.mem_cons, List.mem_singleton, List.not_mem_nil, or_false] at h
    rcases h with h | h | h | h
    · exact Or.inr ⟨_, h⟩
    · exact Or.inr ⟨_, h⟩
    · exact Or.inr ⟨_, h⟩
    · exact Or.inl h
  | a :: b :: d :: rest, c, h => by
    simp only [b64encode, List.mem_cons] at h
    rcases h with h | h | h | h | h
    · exact Or.inr ⟨_, h⟩
    · exact Or.inr ⟨_, h⟩
    · exact Or.inr ⟨_, h⟩
    · exact Or.inr ⟨_, h⟩
    · exact mem_b64encode rest c h

/-- Encoder output contains no ASCII whitespace, so the forgiving-base64
whitespace removal is the identity on it. -/
theorem encode_no_ws (bs : List Nat) :
    (b64encode bs).filter (fun c => !isWs c) = b64encode bs :=
  List.filter_eq_self.mpr (fun c hc => by
    rcases mem_b64encode bs c hc with h | ⟨n, h⟩
    · subst h
      decide
    · subst h
      simp [isWs_encChar])

/-- Round trip of the decoder core over the reference encoder. -/
theorem b64decodeCore_encode : ∀ (bs : List Nat), (∀ b ∈ bs, b < 256) →
    b64decodeCore (b64encode bs) = some bs
  | [], _ => rfl
  | [a], h => by
    have ha : a < 256 := h a (by simp)
    have e1 := dec_enc (a / 4) (by omega)
    have e2 := dec_enc (a % 4 * 16) (by omega)
    simp [b64encode, b64decodeCore, e1, e2]
    omega
  | [a, b], h => by
    have ha : a < 256 := h a (by simp)
    have hb : b < 256 := h b (by simp)
    have e1 := dec_enc (a / 4) (by omega)
    have e2 := dec_enc (a % 4 * 16 + b / 16) (by omega)
    have e3 := dec_enc (b % 16 * 4) (by omega)
    have hy : encChar (b % 16 * 4) ≠ '=' := encChar_ne_pad _
    simp [b64encode, b64decodeCore, e1, e2, e3, hy]
    constructor <;> omega
  | a :: b :: d :: rest, h => by
    have ha : a < 256 := h a (by simp)
    have hb : b < 256 := h b (by simp)
    have hd : d < 256 := h d (by simp)
    have e1 := dec_enc (a / 4) (by omega)
    have e2 := dec_enc (a % 4 * 16 + b / 16) (by omega)
    have e3 := dec_enc (b % 16 * 4 + d / 64) (by omega)
    have e4 := dec_enc (d % 64) (by omega)
    have hz : encChar (d % 64) ≠ '=' := encChar_ne_pad _
    have ih := b64decodeCore_encode rest (fun x hx => h x (by simp [hx]))
    rcases hr : b64encode rest with _ | ⟨hh, tt⟩
    · have hrest_nil : rest = [] := by
        rw [hr] at ih
        simpa [b64decodeCore] using ih.symm
      subst hrest_nil
      show b64decodeCore [encChar (a / 4), encChar (a % 4 * 16 + b / 16),
        encChar (b % 16 * 4 + d / 64), encChar (d % 64)] = some [a, b, d]
      simp [b64decodeCore, decodeQuad, e1, e2, e3, e4, hz]
      refine ⟨?_, ?_, ?_⟩ <;> omega
    · show b64decodeCore (encChar (a / 4) :: encChar (a % 4 * 16 + b / 16) ::
        encChar (b % 16 * 4 + d / 64) :: encChar (d % 64) :: b64encode rest) =
          some (a :: b :: d :: rest)
      rw [hr]
      simp only [b64decodeCore, decodeQuad, e1, e2, e3, e4]
      rw [← hr, ih]
      simp only [Option.map_some']
      simp
      refine ⟨?_, ?_, ?_⟩ <;> omega

set_option maxRecDepth 4096 in
theorem char_toNat_ofNat : ∀ b < 256, (Char.ofNat b).toNat = b := by decide

theorem map_id_of_mem : ∀ (l : List Nat) (f : Nat → Nat), (∀ x ∈ l, f x = x) → l.map f = l
  | [], _, _ => rfl
  | x :: xs, f, h => by
    simp only [List.map_cons, h x (by simp)]
    rw [map_id_of_mem xs f (fun y hy => h y (by simp [hy]))]

/-! ## Claim C1 -/

/-- C1 counterexample: the claim also covers responses that parse as JSON
but omit required keys, yet for the concrete response text consisting only
of a word binding (definition, examples and usage all absent) the lookup
issues the image-generation call and surfaces a partial entry whose
missing fields are undefined — the result is not cleared and the image
call is not suppressed. -/
theorem lookup_missing_keys_not_rejected :
    performLookup "w" (StepResult.ok (some "\x7b\"word\": \"hi\"\x7d"))
        (StepResult.ok ⟨[⟨⟨[⟨some "IMG"⟩]⟩⟩]⟩) "id0" "es" "en" =
      ⟨some ⟨some (Json.str "hi"), none, none, none, "id0",
        "data:image/png;base64,IMG", "es", "en"⟩, true⟩ := rfl

/-- C1 (amended): for every lookup whose text-generation step throws or
whose response text (after the falsy fallback to an empty-object literal)
fails to parse as JSON, the lookup yields no entry (the result state stays
cleared) and no image-generation call is issued. -/
theorem lookup_unparseable_text_aborts (q : String) (text : StepResult (Option String))
    (img : StepResult ImageResponse) (idStamp tl nl : String)
    (h : text = StepResult.threw ∨
      ∃ t, text = StepResult.ok t ∧ jsonParse (effectiveText t) = none) :
    performLookup q text img idStamp tl nl = ⟨none, false⟩ := by
  rcases h with h | ⟨t, rfl, hp⟩
  · subst h
    rfl
  · simp [performLookup, hp]

/-- C1 witness: a concrete lookup whose text response is not JSON yields
no entry and no image call. -/
theorem lookup_unparseable_text_aborts_witness :
    jsonParse (effectiveText (some "not json")) = none ∧
    performLookup "w" (StepResult.ok (some "not json")) (StepResult.ok ⟨[]⟩)
      "id0" "es" "en" = ⟨none, false⟩ :=
  ⟨rfl, lookup_unparseable_text_aborts "w" _ _ "id0" "es" "en"
    (Or.inr ⟨some "not json", rfl, rfl⟩)⟩

/-! ## Claim C2 -/

/-- C2 counterexample: with a text response carrying all four required
keys, an image-generation call that throws (an error response) aborts the
whole lookup — no entry at all is surfaced, contradicting the claim that
such a lookup still yields a valid entry without an image. -/
theorem lookup_image_throw_aborts :
    jsonParse "\x7b\"word\": \"hi\", \"definition\": \"d\", \"examples\": [], \"usage\": \"u\"\x7d" =
      some (Json.obj [("word", Json.str "hi"), ("definition", Json.str "d"),
        ("examples", Json.arr []), ("usage", Json.str "u")]) ∧
    performLookup "w"
      (StepResult.ok
        (some "\x7b\"word\": \"hi\", \"definition\": \"d\", \"examples\": [], \"usage\": \"u\"\x7d"))
      StepResult.threw "id0" "es" "en" = ⟨none, true⟩ :=
  ⟨rfl, rfl⟩

/-- C2 (amended): when the text step succeeds and the image call resolves
with a first candidate none of whose parts carries inline image data, the
lookup yields an entry holding every field of the parsed text response,
with an empty image URL, and no error is reported. -/
theorem lookup_image_no_parts_degrades (q : String) (t : Option String)
    (idStamp tl nl : String) (parsed : Json) (parts : List ImagePart)
    (rest : List ImageCandidate)
    (hp : jsonParse (effectiveText t) = some parsed)
    (hparts : ∀ p ∈ parts, p.inlineData = none) :
    performLookup q (StepResult.ok t) (StepResult.ok ⟨⟨⟨parts⟩⟩ :: rest⟩) idStamp tl nl =
      ⟨some ⟨jsonField parsed "word", jsonField parsed "definition",
        jsonField parsed "examples", jsonField parsed "usage", idStamp, "", tl, nl⟩, true⟩ := by
  have hscan : scanImageParts parts = "" := scanFold_all_none parts "" hparts
  simp [performLookup, hp, hscan]

/-- C2 witness: a concrete lookup whose image response has a candidate
with zero parts degrades to an entry with an empty image URL. -/
theorem lookup_image_no_parts_degrades_witness :
    jsonParse (effectiveText (some "\x7b\x7d")) = some (Json.obj []) ∧
    performLookup "w" (StepResult.ok (some "\x7b\x7d")) (StepResult.ok ⟨[⟨⟨[]⟩⟩]⟩)
      "id0" "es" "en" = ⟨some ⟨none, none, none, none, "id0", "", "es", "en"⟩, true⟩ :=
  ⟨rfl, lookup_image_no_parts_degrades "w" (some "\x7b\x7d") "id0" "es" "en"
    (Json.obj []) [] [] rfl (by simp)⟩

/-! ## Claim C3 -/

/-- C3 counterexample: when the toggled word is already present at a
non-final position, toggling it twice does not restore the pre-toggle
notebook — the entry moves to the end. -/
theorem toggle_double_present_reorders :
    toggleNotebook (toggleNotebook [entryA, entryB] entryA) entryA = [entryB, entryA] ∧
    [entryB, entryA] ≠ [entryA, entryB] := by decide

/-- C3 (amended): toggling an entry whose word is present filters out
every entry with that word and adds nothing; toggling when the word is
absent appends exactly one entry at the end, and then toggling the same
word again restores the pre-toggle notebook (the double-toggle identity
holds when the word was absent before the first toggle). -/
theorem toggle_semantics (nb : List WordEntry) (e : WordEntry) :
    ((∃ n ∈ nb, n.word = e.word) →
      toggleNotebook nb e = nb.filter (fun n => n.word != e.word)) ∧
    ((∀ n ∈ nb, n.word ≠ e.word) →
      toggleNotebook nb e = nb ++ [e] ∧ toggleNotebook (toggleNotebook nb e) e = nb) := by
  constructor
  · intro h
    have ha : nb.any (fun n => n.word == e.word) = true := by
      simp only [List.any_eq_true, beq_iff_eq]
      exact h
    simp [toggleNotebook, ha]
  · intro h
    have ha : nb.any (fun n => n.word == e.word) = false := by
      simp only [List.any_eq_false, beq_iff_eq]
      exact h
    have hfilter : nb.filter (fun n => n.word != e.word) = nb :=
      List.filter_eq_self.mpr (fun n hn => by simpa [bne_iff_ne] using h n hn)
    have h1 : toggleNotebook nb e = nb ++ [e] := by simp [toggleNotebook, ha]
    refine ⟨h1, ?_⟩
    rw [h1]
    have ha2 : (nb ++ [e]).any (fun n => n.word == e.word) = true := by simp
    simp [toggleNotebook, ha2, List.filter_append, hfilter]

/-- C3 witness: toggling an absent word appends it, and toggling it again
restores the notebook. -/
theorem toggle_semantics_witness :
    toggleNotebook [entryB] entryA = [entryB, entryA] ∧
    toggleNotebook (toggleNotebook [entryB] entryA) entryA = [entryB] :=
  (toggle_semantics [entryB] entryA).2 (by decide)

/-! ## Claim C4 -/

/-- C4: the claimed reset of the study session on notebook shrinkage does
not exist in the code.  Starting from an empty notebook: save two entries,
advance the study navigator to index 1, then remove the second entry from
the notebook view.  The notebook now has one entry while the card index is
still 1, outside the claimed range, and the study view read of the card at
the current index yields no element (in JS, an undefined whose property
access crashes the render). -/
theorem study_index_escapes_bounds :
    (runOps ⟨[], 0, false⟩
      [AppOp.toggleSave entryA, AppOp.toggleSave entryB, AppOp.studyNext,
        AppOp.removeId "b1"]) =
      ⟨[entryA], 1, false⟩ ∧
    ¬ (1 : Nat) < ([entryA] : List WordEntry).length ∧
    ([entryA] : List WordEntry).get? 1 = none := by decide

/-! ## Claim C5 -/

/-- C5: for every PCM byte payload (an even number of bytes, since PCM16
is a whole number of 16-bit samples; `new Int16Array` throws outright on
an odd byte length) and every channel count C ≥ 1, decoding succeeds and
every channel of the produced buffer has exactly `L / 2 / C` frames in
natural-number division — the JS real-valued quotient is truncated, never
rounded, by the buffer construction. -/
theorem decode_audio_frame_count (data : List Nat) (C : Nat) (hC : 0 < C)
    (h2 : 2 ∣ data.length) :
    ∃ chs, decodeAudioData data C = some chs ∧ chs.length = C ∧
      ∀ ch ∈ chs, ch.length = data.length / 2 / C := by
  obtain ⟨pcm, hp, hl⟩ := bytesToInt16_even data h2
  have hd : decodeAudioData data C = some ((List.range C).map (fun channel =>
      (List.range (bufferLength pcm.length C)).map
        (fun i => ((pcm.getD (i * C + channel) 0 : Int) : ℚ) / 32768))) := by
    rw [decodeAudioData, hp]
    rfl
  refine ⟨_, hd, by simp, ?_⟩
  intro ch hch
  simp only [List.mem_map] at hch
  obtain ⟨c, _, rfl⟩ := hch
  simp [bufferLength_eq, hl]

/-- C5 witness: a six-byte stereo payload decodes to two channels of
exactly 6 / 2 / 2 = 1 frame each, with the trailing partial frame
discarded. -/
theorem decode_audio_frame_count_witness :
    (0 < 2 ∧ 2 ∣ ([1, 2, 3, 4, 5, 6] : List Nat).length) ∧
    (∃ chs, decodeAudioData [1, 2, 3, 4, 5, 6] 2 = some chs ∧ chs.length = 2 ∧
      ∀ ch ∈ chs, ch.length = ([1, 2, 3, 4, 5, 6] : List Nat).length / 2 / 2) ∧
    decodeAudioData [1, 2, 3, 4, 5, 6] 2 = some [[(513 : ℚ) / 32768], [(1027 : ℚ) / 32768]] :=
  ⟨⟨by decide, by decide⟩,
    decode_audio_frame_count [1, 2, 3, 4, 5, 6] 2 (by decide) (by decide),
    by simp [decodeAudioData, bytesToInt16, toInt16, bufferLength_eq, List.range_succ]⟩

/-! ## Claim C6 -/

/-- C6: the decoded sample of channel c at frame i equals the int16 value
at interleaved position `i * C + c` divided by 32768, exactly — channel
order preserved and no other transformation applied. -/
theorem decode_audio_sample_exact (data : List Nat) (C : Nat) (pcm : List Int)
    (chs : List (List ℚ)) (hpcm : bytesToInt16 data = some pcm)
    (hdec : decodeAudioData data C = some chs)
    (c i : Nat) (hc : c < C) (hi : i < pcm.length / C) :
    sampleAt chs c i = ((pcm.getD (i * C + c) 0 : Int) : ℚ) / 32768 := by
  rw [decodeAudioData, hpcm] at hdec
  have hchs : chs = (List.range C).map (fun channel =>
      (List.range (bufferLength pcm.length C)).map
        (fun i => ((pcm.getD (i * C + channel) 0 : Int) : ℚ) / 32768)) := by
    have h2d : some ((List.range C).map (fun channel =>
        (List.range (bufferLength pcm.length C)).map
          (fun i => ((pcm.getD (i * C + channel) 0 : Int) : ℚ) / 32768))) = some chs := hdec
    cases h2d
    rfl
  subst hchs
  have hib : i < bufferLength pcm.length C := by rwa [bufferLength_eq]
  unfold sampleAt
  rw [getD_map_range _ _ _ _ hc, getD_map_range _ _ _ _ hib]

/-- C6 witness: the boundary sample −32768 (bytes 0x00 0x80, little
endian) decodes to exactly −1. -/
theorem decode_audio_sample_exact_witness :
    (0 < 1 ∧ 0 < ([-32768] : List Int).length / 1) ∧
    bytesToInt16 [0, 128] = some [-32768] ∧
    decodeAudioData [0, 128] 1 = some [[(-1 : ℚ)]] ∧
    sampleAt [[(-1 : ℚ)]] 0 0 = ((([-32768] : List Int).getD 0 0 : Int) : ℚ) / 32768 :=
  ⟨⟨by decide, by decide⟩, by decide,
    by simp [decodeAudioData, bytesToInt16, toInt16, bufferLength_eq, List.range_succ],
    decode_audio_sample_exact [0, 128] 1 [-32768] [[(-1 : ℚ)]] (by decide)
      (by simp [decodeAudioData, bytesToInt16, toInt16, bufferLength_eq, List.range_succ])
      0 0 (by decide) (by decide)⟩

/-! ## Claim C7 -/

/-- C7 counterexample: for the query "hello" and a text response whose
word field is "HELLO", the surfaced entry carries the word of the
response, which differs from the original query string — the word field
is not the query verbatim. -/
theorem lookup_word_not_query :
    ((performLookup "hello" (StepResult.ok (some "\x7b\"word\": \"HELLO\"\x7d"))
        (StepResult.ok ⟨[⟨⟨[]⟩⟩]⟩) "id0" "es" "en").result.map (fun e => e.word)) =
      some (some (Json.str "HELLO")) ∧ ("HELLO" : String) ≠ "hello" :=
  ⟨rfl, by decide⟩

/-- C7 (amended): for every successful lookup, the word field of the
produced entry equals the word field of the parsed text response — the
spread of the parse result — not necessarily the query string. -/
theorem lookup_word_from_response (q : String) (t : Option String)
    (img : StepResult ImageResponse) (idStamp tl nl : String) (parsed : Json)
    (e : LookupEntry) (hp : jsonParse (effectiveText t) = some parsed)
    (he : (performLookup q (StepResult.ok t) img idStamp tl nl).result = some e) :
    e.word = jsonField parsed "word" := by
  cases img with
  | threw => simp [performLookup, hp] at he
  | ok resp =>
    obtain ⟨cands⟩ := resp
    cases cands with
    | nil => simp [performLookup, hp] at he
    | cons cand cs =>
      simp only [performLookup, hp, List.head?_cons, Option.some.injEq] at he
      rw [← he]

/-- C7 witness: a concrete successful lookup whose entry word equals the
word field of the response. -/
theorem lookup_word_from_response_witness :
    jsonParse (effectiveText (some "\x7b\"word\": \"q\"\x7d")) =
      some (Json.obj [("word", Json.str "q")]) ∧
    (⟨some (Json.str "q"), none, none, none, "id0", "", "es", "en"⟩ : LookupEntry).word =
      jsonField (Json.obj [("word", Json.str "q")]) "word" :=
  ⟨rfl, lookup_word_from_response "w" (some "\x7b\"word\": \"q\"\x7d")
    (StepResult.ok ⟨[⟨⟨[]⟩⟩]⟩) "id0" "es" "en" _ _ rfl rfl⟩

/-! ## Claim C8 -/

/-- C8 counterexample: a present, nonempty, unparseable notebook blob
makes the hydration effect fatal — the uncaught JSON.parse exception
escapes — contradicting the claim that such a startup is never fatal. -/
theorem hydrate_unparseable_fatal :
    ("]" : String) ≠ "" ∧ jsonParse "]" = none ∧
    hydrateNotebook (some "]") = HydrationResult.fatal :=
  ⟨by decide, rfl, rfl⟩

/-- C8 (amended): with an absent blob — or a present but empty one, both
JS-falsy at the `if (saved)` test — the store starts empty and hydration
succeeds; a nonempty parseable blob stores the parsed value unchecked; a
nonempty unparseable blob throws out of the hydration effect instead of
falling back to an empty store. -/
theorem hydrate_behavior :
    hydrateNotebook none = HydrationResult.store (Json.arr []) ∧
    hydrateNotebook (some "") = HydrationResult.store (Json.arr []) ∧
    (∀ s, s ≠ "" → ∀ j, jsonParse s = some j →
      hydrateNotebook (some s) = HydrationResult.store j) ∧
    (∀ s, s ≠ "" → jsonParse s = none →
      hydrateNotebook (some s) = HydrationResult.fatal) := by
  refine ⟨rfl, rfl, ?_, ?_⟩
  · intro s hs j h
    simp [hydrateNotebook, hs, h]
  · intro s hs h
    simp [hydrateNotebook, hs, h]

/-- C8 witness: concrete hydration outcome for a nonempty unparseable
blob. -/
theorem hydrate_behavior_witness :
    ("corrupt" : String) ≠ "" ∧ jsonParse "corrupt" = none ∧
    hydrateNotebook (some "corrupt") = HydrationResult.fatal :=
  ⟨by decide, rfl, hydrate_behavior.2.2.2 "corrupt" (by decide) rfl⟩

/-! ## Claim C9 -/

/-- C9: flipping the card toggles the flipped flag and changes neither the
index nor the notebook; an enabled Previous press (index nonzero) and an
enabled Next press (index not at the last card) always reset the flipped
flag to false while moving the index by one. -/
theorem study_flip_next_prev_effects (s : AppState) :
    ((appStep s AppOp.flipCard).currentCardIndex = s.currentCardIndex ∧
     (appStep s AppOp.flipCard).isFlipped = !s.isFlipped ∧
     (appStep s AppOp.flipCard).notebook = s.notebook) ∧
    (s.notebook ≠ [] → s.currentCardIndex ≠ 0 →
      (appStep s AppOp.studyPrev).isFlipped = false ∧
      (appStep s AppOp.studyPrev).currentCardIndex = s.currentCardIndex - 1) ∧
    (s.notebook ≠ [] → s.currentCardIndex ≠ s.notebook.length - 1 →
      (appStep s AppOp.studyNext).isFlipped = false ∧
      (appStep s AppOp.studyNext).currentCardIndex = s.currentCardIndex + 1) := by
  refine ⟨⟨rfl, rfl, rfl⟩, ?_, ?_⟩
  · intro h1 h2
    simp [appStep, h1, h2]
  · intro h1 h2
    simp [appStep, h1, h2]

/-- C9 witness: on a three-card notebook at index 1 with the card flipped,
a flip keeps the index, and Previous and Next both reset the flip. -/
theorem study_flip_next_prev_effects_witness :
    (appStep ⟨[entryA, entryB, entryC], 1, true⟩ AppOp.flipCard).currentCardIndex = 1 ∧
    (appStep ⟨[entryA, entryB, entryC], 1, true⟩ AppOp.flipCard).isFlipped = false ∧
    (appStep ⟨[entryA, entryB, entryC], 1, true⟩ AppOp.studyPrev).isFlipped = false ∧
    (appStep ⟨[entryA, entryB, entryC], 1, true⟩ AppOp.studyNext).isFlipped = false :=
  ⟨(study_flip_next_prev_effects ⟨[entryA, entryB, entryC], 1, true⟩).1.1,
    (study_flip_next_prev_effects ⟨[entryA, entryB, entryC], 1, true⟩).1.2.1,
    ((study_flip_next_prev_effects ⟨[entryA, entryB, entryC], 1, true⟩).2.1
      (by decide) (by decide)).1,
    ((study_flip_next_prev_effects ⟨[entryA, entryB, entryC], 1, true⟩).2.2
      (by decide) (by decide)).1⟩

/-! ## Claim C10 -/

/-- C10: the decode utility is a left inverse of standard base64 encoding
— decoding the encoding of any byte list returns it unchanged — and on
every input accepted by atob the returned byte array consists of the
character codes of the decoded binary string, one byte per character. -/
theorem decode_base64_left_inverse :
    (∀ bs : List Nat, (∀ b ∈ bs, b < 256) → decode (b64encodeString bs) = some bs) ∧
    (∀ s bin, atobString s = some bin →
      decode s = some (bin.data.map Char.toNat) ∧
      (bin.data.map Char.toNat).length = bin.length) := by
  constructor
  · intro bs h
    unfold decode atobString atobBytes b64encodeString
    rw [show (String.mk (b64encode bs)).data = b64encode bs from rfl]
    rw [encode_no_ws, b64decodeCore_encode bs h]
    simp only [Option.map_some']
    rw [List.map_map]
    rw [map_id_of_mem bs (Char.toNat ∘ Char.ofNat) (fun x hx => char_toNat_ofNat x (h x hx))]
  · intro s bin hbin
    unfold decode
    rw [hbin]
    exact ⟨rfl, by simp⟩

/-- C10 witness: round trip of the bytes of "Man" through base64, and a
decode of a padded quantum matching the char codes of the atob output. -/
theorem decode_base64_left_inverse_witness :
    (∀ b ∈ ([77, 97, 110] : List Nat), b < 256) ∧
    decode (b64encodeString [77, 97, 110]) = some [77, 97, 110] ∧
    atobString "TQ==" = some "M" ∧
    decode "TQ==" = some (("M" : String).data.map Char.toNat) :=
  ⟨by decide, decode_base64_left_inverse.1 [77, 97, 110] (by decide), rfl,
    (decode_base64_left_inverse.2 "TQ==" "M" rfl).1⟩

end AILexicon
